import Mathlib

/-!
Shallow embedding of `src/DevCode/Modelbuilder_V2.py` (class `Classifier`).

The embedding models the experiment bookkeeping of the training harness:
the experiment log writer (`write_data`), the artifact cleanup
(`delete_file`), the optimizer/scheduler configurator
(`setup_optimization`), the backbone selection of `load_model`, the
train/validation index split of `load_data`, and the per-epoch
improvement tracking of `train`.  Tensor math, image decoding and the
actual neural network are external collaborators and are not modelled;
per-epoch validation losses enter the model as given rational numbers.

Python floats are modelled as rationals; `np.Inf` is the top element of
`WithTop ℚ`.  Python exceptions are modelled by the inductive `Err` and
`Except` results.  The file system visible to the class is modelled by
`FS`: the `Exp_data` text files (name and content) and the
`Model_Stats/exp_<id>` directories.  File names are the base names
inside their directories; the model assumes the performance-directory
path itself does not interfere with the `re.search` of `delete_file`.
-/

namespace Modelbuilder

/-- Python exception kinds raised by the translated code paths.
`fileNotFound` is FileNotFoundError, `indexError` is the IndexError from
indexing an empty `re.findall` result, `ioError` is the IOError raised on
unsupported configuration (the error the spec taxonomy calls
ConfigurationError), `typeError` models a Python 3 TypeError. -/
inductive Err where
  | fileNotFound
  | indexError
  | ioError
  | modelNotFound
  | dataNotArranged
  | featuresNotProvided
  | typeError
deriving DecidableEq, Repr

/-- Argument type of `write_data`: a single string or a list of lines
(the Python parameter `lines: Union[str, List]`). -/
inductive Lines where
  | one (s : String)
  | many (ls : List String)
deriving DecidableEq, Repr

/-- The visual separator written by `write_data`
(source line 723: a newline, 46 dashes, two newlines). -/
def separator : String := "\n----------------------------------------------\n\n"

/-- Decides whether `pat` occurs at the head of `s` (character lists). -/
def leadMatch : List Char → List Char → Bool
  | _, [] => true
  | [], _ :: _ => false
  | a :: s, b :: p => a == b && leadMatch s p

/-- Decides whether `pat` occurs somewhere inside `s` (character lists);
this is the substring test performed by `re.search` on a pattern with no
metacharacters (source line 773). -/
def subMatch : List Char → List Char → Bool
  | s, pat =>
    match s with
    | [] => leadMatch [] pat
    | _ :: rest => leadMatch s pat || subMatch rest pat

/-- Decides whether a file name ends in `.txt`, the filter of the
`glob.glob(... + '\x5c*.txt')` calls in `delete_file`. -/
def txtName (name : String) : Bool :=
  leadMatch name.toList.reverse ".txt".toList.reverse

/-- File-system state visible to the `Classifier` methods: the text files
of the `Exp_data` directory as an association list from file name to
content, and the experiment ids whose `Model_Stats/exp_<id>` directory
exists. -/
structure FS where
  logs : List (String × String)
  metricsDirs : List Nat
deriving DecidableEq, Repr

/-- Name of the experiment log file, source line 713:
`'Test Report_' + str(exp_no) + '.txt'`. -/
def logFileName (exp_no : Nat) : String :=
  "Test Report_" ++ toString exp_no ++ ".txt"

/-- Content of the file `name`, or `none` when the file does not exist. -/
def getLog (fs : FS) (name : String) : Option String :=
  (fs.logs.find? (fun p => p.1 == name)).map Prod.snd

/-- Write `content` to file `name`, creating the file when missing. -/
def setLogList : List (String × String) → String → String → List (String × String)
  | [], name, content => [(name, content)]
  | (n, d) :: rest, name, content =>
    if n == name then (n, content) :: rest
    else (n, d) :: setLogList rest name content

/-- Write `content` to file `name` in the file system. -/
def setLog (fs : FS) (name : String) (content : String) : FS :=
  { fs with logs := setLogList fs.logs name content }

/-- Text appended to the log by the `not replace` branch of `write_data`
(source lines 715-731).  For a list, each line is written followed by a
newline; with `continuing` unset a separator follows each line, with
`continuing` set a single separator follows the whole block.  For a
single string, the line and a newline are written, followed by a
separator only when `continuing` is unset (the source writes nothing
after the newline in the single-string `continuing` case). -/
def appendedText (lines : Lines) (continuing : Bool) : String :=
  match lines with
  | .many ls =>
    let body := ls.foldl
      (fun acc line =>
        let acc := acc ++ line ++ "\n"
        if continuing then acc else acc ++ separator) ""
    if continuing then body ++ separator else body
  | .one s =>
    let body := s ++ "\n"
    if continuing then body else body ++ separator

/-- Append branch of `write_data`: opening with mode `a+` creates the
file when missing and appends at the end. -/
def write_append (fs : FS) (lines : Lines) (exp_no : Nat) (continuing : Bool) : FS :=
  let filename := logFileName exp_no
  let old := (getLog fs filename).getD ""
  setLog fs filename (old ++ appendedText lines continuing)

/-- First match of the regex `.{15}` in a string (source line 733):
the leftmost run of fifteen consecutive characters none of which is a
newline.  Returns `none` when no such run exists, in which case the
source raises IndexError on the `[0]` subscript. -/
def firstWin15 : List Char → Option (List Char)
  | [] => none
  | c :: rest =>
    let win := (c :: rest).take 15
    if win.length == 15 && win.all (fun ch => ch != '\n') then some win
    else firstWin15 rest

/-- First match of the regex `identifier + '.+'` in the file content
(source line 736): the leftmost position where the fifteen identifier
characters occur followed by at least one further non-newline character;
the match extends to the end of that line.  The identifier characters
are modelled as literal (the lines the source replaces contain no regex
metacharacters).  Returns `none` when there is no match, in which case
the source raises IndexError on the `[0]` subscript. -/
def findOld : List Char → List Char → Option (List Char)
  | [], _ => none
  | c :: rest, pat =>
    if leadMatch (c :: rest) pat
        && decide (((c :: rest).drop pat.length).takeWhile (fun ch => ch != '\n') ≠ []) then
      some (pat ++ ((c :: rest).drop pat.length).takeWhile (fun ch => ch != '\n'))
    else findOld rest pat

/-- Replacement of every non-overlapping occurrence of `pat` by `repl`,
left to right: the semantics of `str.replace` (source line 737). -/
def replaceAll (s pat repl : List Char) : List Char :=
  match s with
  | [] => []
  | c :: rest =>
    if h : pat ≠ [] ∧ leadMatch (c :: rest) pat = true then
      repl ++ replaceAll ((c :: rest).drop pat.length) pat repl
    else c :: replaceAll rest pat repl
termination_by s.length
decreasing_by
  · have hp : 0 < pat.length := List.length_pos.mpr h.1
    simp only [List.length_drop, List.length_cons]
    omega
  · simp

/-- Replace branch of `write_data` (source lines 732-741): compute the
fifteen-character identifier from the new line, open the file for
reading (FileNotFoundError when missing), locate the old line by the
identifier (IndexError when absent) and rewrite the file with every
occurrence of the old line replaced by the new one. -/
def write_replace (fs : FS) (line : String) (exp_no : Nat) : Except Err FS :=
  let filename := logFileName exp_no
  match firstWin15 line.toList with
  | none => .error .indexError
  | some identifier =>
    match getLog fs filename with
    | none => .error .fileNotFound
    | some data =>
      match findOld data.toList identifier with
      | none => .error .indexError
      | some old =>
        .ok (setLog fs filename (String.mk (replaceAll data.toList old line.toList)))

/-- Translation of `Classifier.write_data` (source lines 686-741).
Opening in append mode creates the parent directory and the file, so the
append branch never fails.  Calling the replace branch with a list makes
`re.findall` reject the non-string argument with a TypeError. -/
def write_data (fs : FS) (lines : Lines) (exp_no : Nat)
    (continuing : Bool) (replace : Bool) : Except Err FS :=
  if !replace then
    .ok (write_append fs lines exp_no continuing)
  else
    match lines with
    | .many _ => .error .typeError
    | .one line => write_replace fs line exp_no

/-- Translation of `Classifier.delete_file` (source lines 745-774).
When `stats_delete` is set the `Model_Stats/exp_<id>` directory is
removed (a missing directory only prints a warning).  When the
`Exp_data` glob of `*.txt` is empty a FileNotFoundError is raised;
otherwise every `.txt` file whose name contains the substring
`_<exp_no>` is removed. -/
def delete_file (fs : FS) (exp_no : Nat) (stats_delete : Bool) : Except Err FS :=
  let fs1 := if stats_delete
    then { fs with metricsDirs := fs.metricsDirs.filter (fun d => d ≠ exp_no) }
    else fs
  if (fs1.logs.filter (fun f => txtName f.1)).isEmpty then
    .error .fileNotFound
  else
    .ok { fs1 with logs := fs1.logs.filter (fun f =>
      !(txtName f.1 && subMatch f.1.toList ("_" ++ toString exp_no).toList)) }

/-- The optimizer objects that line 339 and line 341 of the source can
construct. -/
inductive Optimizer where
  | Adam
  | SGD
deriving DecidableEq, Repr

/-- The scheduler objects that line 346 and line 357 of the source can
construct. -/
inductive Scheduler where
  | StepLR
  | ReduceLROnPlateau
deriving DecidableEq, Repr

/-- Translation of `Classifier.setup_optimization` (source lines
282-370).  The hyperparameters are carried only into the logged lines.
Note the source control flow: the assignment `self.optimizer = SGD`
at line 341 is unconditional, so it overwrites the Adam optimizer built
at line 339; likewise `self.scheduler = ReduceLROnPlateau` at line 357
unconditionally overwrites the StepLR scheduler built at line 346,
although the StepLR branch has already logged its parameter lines.  The
shadowing `let` bindings below mirror those re-assignments. -/
def setup_optimization (fs0 : FS) (exp_no : Nat)
    (optimizer_name scheduler_name : String)
    (learning_rate factor threshold gamma : ℚ) (patience step_size : Nat) :
    Except (Err × FS) (Optimizer × Scheduler × FS) :=
  let fs1 := write_append fs0 (.many
    ["Optimizer name: " ++ optimizer_name,
     "Scheduler name: " ++ scheduler_name,
     "Starting Learning rate: " ++ toString learning_rate]) exp_no true
  if optimizer_name ∉ ["adam", "SGD"] then
    match delete_file fs1 exp_no false with
    | .error e => .error (e, fs1)
    | .ok fs2 => .error (.ioError, fs2)
  else if scheduler_name ∉ ["reduceOnPlateau", "StepLR"] then
    match delete_file fs1 exp_no false with
    | .error e => .error (e, fs1)
    | .ok fs2 => .error (.ioError, fs2)
  else
    let optimizer := if optimizer_name == "adam" then some Optimizer.Adam else none
    let optimizer := Optimizer.SGD
    let schedFs : Option Scheduler × FS :=
      if scheduler_name == "StepLR" then
        (some Scheduler.StepLR,
         write_append fs1 (.many
           ["StepLR scheduler Parameters:-",
            "Step size: " ++ toString step_size,
            "Gamma: " ++ toString gamma]) exp_no true)
      else (none, fs1)
    let scheduler := Scheduler.ReduceLROnPlateau
    let fs3 := write_append schedFs.2 (.many
      ["reduceOnPlateau Scheduler parameters:-",
       "Factor: " ++ toString factor,
       "Threshold: " ++ toString threshold,
       "Patience: " ++ toString patience]) exp_no true
    .ok (optimizer, scheduler, fs3)

/-- Supported backbone names, source line 19. -/
def Model_names : List String := ["resnet18", "resnet50", "resnet101", "resnet152"]

/-- Pretrained architectures reachable from `load_model`. -/
inductive Arch where
  | resnet18
  | resnet50
  | vgg16
  | resnet101
  | resnet152
deriving DecidableEq, Repr

/-- Backbone instantiation of `Classifier.load_model` (source lines
219-226): the chain of `if Model_name == ...` branches selecting the
pretrained model constructor.  The name `resnet101` selects
`models.vgg16` and the name `resnet152` selects `models.resnet101`,
exactly as written in the source.  Names outside `Model_names` never
reach this code (`__init__` rejects them), and would leave the network
attribute unset (`none`). -/
def load_model_backbone (Model_name : String) : Option Arch :=
  if Model_name == "resnet18" then some Arch.resnet18
  else if Model_name == "resnet50" then some Arch.resnet50
  else if Model_name == "resnet101" then some Arch.vgg16
  else if Model_name == "resnet152" then some Arch.resnet101
  else none

/-- Backbone-name validation of `Classifier.__init__` (source lines
76-104): an unsupported name raises ModelNotFoundError before anything
else happens; a supported name stores the name and appends the banner
block to the experiment log.  The directory-existence checks are
modelled as passing (the directories are given to exist). -/
def classifier_init (fs : FS) (exp_no : Nat) (model_to_train : String)
    (dataset_name : String) : Except Err (String × FS) :=
  if model_to_train ∉ Model_names then
    .error .modelNotFound
  else
    let fs1 := write_append fs (.many
      ["##############################################",
       "\tModel Data for experiment: " ++ toString exp_no,
       "\tModel Trained: " ++ model_to_train,
       "\tData set used: " ++ dataset_name,
       "##############################################"]) exp_no true
    .ok (model_to_train, fs1)

/-- Train/validation index split of `Classifier.load_data` (source
lines 165-174): `indices` is the shuffled permutation of
`np.arange(len(train_data))`, `split = int(np.floor(valid_size * N))`,
`train_idx = indices[split:]`, `valid_idx = indices[:split]`.  The
shuffle outcome enters as the given permutation `indices`. -/
def load_data_split (N : Nat) (valid_size : ℚ) (indices : List Nat) :
    List Nat × List Nat :=
  let split := (⌊valid_size * (N : ℚ)⌋).toNat
  (indices.drop split, indices.take split)

/-- State carried across the epoch loop of `Classifier.train` (source
lines 448-571) as far as the checkpoint bookkeeping is concerned:
`valid_loss_min` is the running minimum validation loss (`np.Inf` is
`⊤`), `improvements` the improvement counter, `saves` the number of
`torch.save` checkpoint writes performed so far, and `recordOps` the
`replace` flags passed to the Best-Metric Record `write_data` calls, in
order (`false` is an append, `true` a replace). -/
structure TrainState where
  valid_loss_min : WithTop ℚ
  improvements : Nat
  saves : Nat
  recordOps : List Bool
deriving DecidableEq, Repr

/-- One epoch of the improvement bookkeeping (source lines 545-564):
when the epoch validation loss is less than or equal to the running
minimum (non-strict), the checkpoint is saved, the Best-Metric Record
lines are written with `replace := improvements != 0`, the running
minimum becomes the epoch loss and the counter is incremented;
otherwise nothing changes.  The epoch validation loss itself is the
externally computed size-weighted average, a rational. -/
def epochStep (st : TrainState) (valid_loss : ℚ) : TrainState :=
  if (valid_loss : WithTop ℚ) ≤ st.valid_loss_min then
    { valid_loss_min := valid_loss,
      improvements := st.improvements + 1,
      saves := st.saves + 1,
      recordOps := st.recordOps ++ [st.improvements != 0] }
  else st

/-- The epoch loop of `train` over the list of per-epoch validation
losses. -/
def trainLoop (st : TrainState) (losses : List ℚ) : TrainState :=
  losses.foldl epochStep st

/-- Initial loop state with a given starting minimum validation loss. -/
def initTrainState (valid_loss_min : WithTop ℚ) : TrainState :=
  { valid_loss_min := valid_loss_min, improvements := 0, saves := 0, recordOps := [] }

/-- Checkpoint-resolution prologue of `Classifier.train` (source lines
417-439).  A custom checkpoint path with no `valid_loss` purges the log
(`stats_delete=False`) and raises IOError; with a `valid_loss` the
minimum starts there.  A previous-checkpoint path sets
`valid_loss_min = valid_loss` with no check, so a missing `valid_loss`
leaves the minimum as Python `None` (modelled by `Option.none`).  A
fresh start sets the minimum to `np.Inf`. -/
def train_start (fs : FS) (exp_no : Nat)
    (custom_path load_prev : Option String) (valid_loss : Option ℚ) :
    Except (Err × FS) (Option (WithTop ℚ) × FS) :=
  match custom_path with
  | some p =>
    match valid_loss with
    | none =>
      match delete_file fs exp_no false with
      | .error e => .error (e, fs)
      | .ok fs1 => .error (.ioError, fs1)
    | some v =>
      let fs1 := write_append fs
        (.one ("Model Loaded from Custom path: " ++ p)) exp_no false
      .ok (some (v : WithTop ℚ), fs1)
  | none =>
    match load_prev with
    | some p =>
      let fs1 := write_append fs
        (.one ("Model Loaded from previous checkpoint: " ++ p)) exp_no false
      .ok (valid_loss.map (fun v => (v : WithTop ℚ)), fs1)
    | none =>
      let fs1 := write_append fs (.one "Trained From beginning") exp_no false
      .ok (some (⊤ : WithTop ℚ), fs1)

/-- Post-loop branch of `Classifier.train` (source lines 574-576): when
the improvement counter is zero, `delete_file` purges the experiment
with `stats_delete` at its default `True`; otherwise the test pass runs
and the file system is left as is for the test-report writes. -/
def train_finish (fs : FS) (st : TrainState) (exp_no : Nat) : Except Err FS :=
  if st.improvements == 0 then delete_file fs exp_no true
  else .ok fs

/-- Rendering of the append semantics in the words of the specification
(used to compare against the translated `appendedText`).  Modelled from
the spec: a separator after each line when `continuing` is unset; when
`continuing` is set, no separator between the lines of the block but
still one separator after the block, for list input and single-string
input alike. -/
def specSepJoin : List String → Bool → String
  | [], _ => ""
  | l :: rest, continuing =>
    (if continuing then l ++ "\n" else l ++ "\n" ++ separator)
      ++ specSepJoin rest continuing

/-- Spec-side append rendering, see `specSepJoin`. -/
def specAppendedText (lines : Lines) (continuing : Bool) : String :=
  match lines with
  | .many ls =>
    if continuing then specSepJoin ls true ++ separator else specSepJoin ls false
  | .one s =>
    if continuing then s ++ "\n" ++ separator else s ++ "\n" ++ separator

/-- Concrete file system with one log that lacks any Best-Metric line. -/
def fsC3 : FS :=
  { logs := [(logFileName 7, "Trained From beginning\n")], metricsDirs := [] }

/-- Concrete file system holding logs of two experiments, 1 and 12. -/
def fsC4 : FS :=
  { logs := [(logFileName 1, "a"), (logFileName 12, "b")], metricsDirs := [1] }

/-- Concrete file system for the checkpoint-resolution scenarios. -/
def fsC5 : FS :=
  { logs := [(logFileName 7, "Trained From beginning\n")], metricsDirs := [7] }

/-- Concrete empty file system. -/
def fsEmpty : FS := { logs := [], metricsDirs := [] }

/-- Concrete file system for the zero-improvement purge witness. -/
def fsW4 : FS := { logs := [(logFileName 3, "x")], metricsDirs := [3] }

section Helpers

/-- A pattern matches at the head of the list formed by itself and any
tail. -/
theorem leadMatch_self_append (p s : List Char) : leadMatch (p ++ s) p = true := by
  induction p with
  | nil => cases s <;> rfl
  | cons c cs ih => simp [leadMatch, ih]

/-- A head match is in particular a substring match. -/
theorem subMatch_of_leadMatch (s pat : List Char) (h : leadMatch s pat = true) :
    subMatch s pat = true := by
  cases s with
  | nil => simpa [subMatch] using h
  | cons c rest => simp [subMatch, h]

/-- Substring matching survives prepending arbitrary characters. -/
theorem subMatch_append_left (a s pat : List Char) (h : subMatch s pat = true) :
    subMatch (a ++ s) pat = true := by
  induction a with
  | nil => simpa using h
  | cons c cs ih => simp [subMatch, ih]

/-- The experiment log file name ends in `.txt`. -/
theorem txtName_logFileName (n : Nat) : txtName (logFileName n) = true := by
  have h : (logFileName n).toList.reverse
      = ".txt".toList.reverse ++ ("Test Report_" ++ toString n).toList.reverse := by
    simp [logFileName, String.toList, String.data_append, List.reverse_append]
  rw [txtName, h]
  exact leadMatch_self_append _ _

/-- The experiment log file name contains the substring
`_<exp_no>` searched by `delete_file`. -/
theorem subMatch_logFileName (n : Nat) :
    subMatch (logFileName n).toList ("_" ++ toString n).toList = true := by
  have h : (logFileName n).toList
      = "Test Report".toList ++ (("_" ++ toString n).toList ++ ".txt".toList) := by
    simp [logFileName, String.toList, String.data_append]
  rw [h]
  exact subMatch_append_left _ _ _
    (subMatch_of_leadMatch _ _ (leadMatch_self_append _ _))

/-- Writing a file leaves an entry under that name in the listing. -/
theorem setLogList_mem_self (l : List (String × String)) (name content : String) :
    ∃ d, (name, d) ∈ setLogList l name content := by
  induction l with
  | nil => exact ⟨content, List.mem_singleton.mpr rfl⟩
  | cons x rest ih =>
    obtain ⟨n, d⟩ := x
    by_cases h : n = name
    · subst h
      exact ⟨content, by simp [setLogList]⟩
    · obtain ⟨d', hd'⟩ := ih
      refine ⟨d', ?_⟩
      simp [setLogList, h]
      right
      exact hd'

/-- Lookup inside a filtered listing fails when the filter drops every
entry carrying the looked-up name. -/
theorem find?_filter_none (l : List (String × String)) (p : String × String → Bool)
    (name : String) (h : ∀ x ∈ l, x.1 = name → p x = false) :
    (l.filter p).find? (fun q => q.1 == name) = none := by
  induction l with
  | nil => rfl
  | cons x rest ih =>
    by_cases hp : p x = true
    · have hx : x.1 ≠ name := by
        intro heq
        have := h x (List.mem_cons_self x rest) heq
        rw [this] at hp
        exact Bool.false_ne_true hp
      have : (x :: rest).filter p = x :: rest.filter p := by
        simp [List.filter_cons, hp]
      rw [this, List.find?]
      have hbeq : (x.1 == name) = false := beq_eq_false_iff_ne.mpr hx
      rw [hbeq]
      exact ih (fun y hy hn => h y (List.mem_cons_of_mem x hy) hn)
    · have hx : p x = false := by
        cases hpx : p x with
        | false => rfl
        | true => exact absurd hpx hp
      have : (x :: rest).filter p = rest.filter p := by
        simp [List.filter_cons, hx]
      rw [this]
      exact ih (fun y hy hn => h y (List.mem_cons_of_mem x hy) hn)

/-- A replace into a missing log file fails with FileNotFoundError,
provided the new line does contain a fifteen-character window. -/
theorem write_data_replace_missing (fs : FS) (line : String) (exp_no : Nat) (c : Bool)
    (idf : List Char) (h15 : firstWin15 line.toList = some idf)
    (hmiss : getLog fs (logFileName exp_no) = none) :
    write_data fs (.one line) exp_no c true = .error .fileNotFound := by
  have h15d : firstWin15 line.data = some idf := h15
  simp [write_data, write_replace, h15d, hmiss]

/-- After an append the log file of the experiment exists. -/
theorem write_append_mem_self (fs : FS) (lines : Lines) (exp_no : Nat) (c : Bool) :
    ∃ d, (logFileName exp_no, d) ∈ (write_append fs lines exp_no c).logs := by
  simp only [write_append, setLog]
  exact setLogList_mem_self _ _ _

/-- A `delete_file` with `stats_delete` unset, run right after an
append created the experiment log, succeeds and leaves no log file under
the experiment's name. -/
theorem delete_after_append (fs : FS) (lines : Lines) (exp_no : Nat) (c : Bool) :
    delete_file (write_append fs lines exp_no c) exp_no false
      = .ok (FS.mk ((write_append fs lines exp_no c).logs.filter (fun f =>
            !(txtName f.1 && subMatch f.1.toList ("_" ++ toString exp_no).toList)))
          (write_append fs lines exp_no c).metricsDirs) ∧
    getLog (FS.mk ((write_append fs lines exp_no c).logs.filter (fun f =>
          !(txtName f.1 && subMatch f.1.toList ("_" ++ toString exp_no).toList)))
        (write_append fs lines exp_no c).metricsDirs)
      (logFileName exp_no) = none := by
  obtain ⟨d, hd⟩ := write_append_mem_self fs lines exp_no c
  have htxt : txtName (logFileName exp_no) = true := txtName_logFileName exp_no
  have hne : (write_append fs lines exp_no c).logs.filter (fun f => txtName f.1) ≠ [] :=
    List.ne_nil_of_mem (List.mem_filter.mpr ⟨hd, htxt⟩)
  have hie : ((write_append fs lines exp_no c).logs.filter (fun f => txtName f.1)).isEmpty
      = false := by
    cases hfe : ((write_append fs lines exp_no c).logs.filter (fun f => txtName f.1)).isEmpty with
    | false => rfl
    | true => exact absurd (List.isEmpty_iff.mp hfe) hne
  have hkeepnone : ∀ x ∈ (write_append fs lines exp_no c).logs, x.1 = logFileName exp_no →
      (!(txtName x.1 && subMatch x.1.toList ("_" ++ toString exp_no).toList)) = false := by
    intro x hx hxn
    rw [hxn]
    have hsub := subMatch_logFileName exp_no
    simp only [txtName_logFileName, hsub, Bool.and_self, Bool.not_true]
  constructor
  · simp [delete_file, hie]
  · simp only [getLog]
    rw [find?_filter_none _ _ (logFileName exp_no) hkeepnone]
    rfl

/-- The foldl of the list-append branch of `write_data` equals the
accumulator followed by the spec-side separator join. -/
theorem foldl_append_specSepJoin (continuing : Bool) (ls : List String) :
    ∀ acc : String,
      ls.foldl (fun a line =>
        let a := a ++ line ++ "\n"
        if continuing then a else a ++ separator) acc
      = acc ++ specSepJoin ls continuing := by
  induction ls with
  | nil => intro acc; simp [specSepJoin]
  | cons l rest ih =>
    intro acc
    rw [List.foldl_cons, ih]
    cases continuing with
    | true => simp [specSepJoin, String.append_assoc]
    | false => simp [specSepJoin, String.append_assoc]

/-- The epoch step never increases the running minimum. -/
theorem epochStep_min_le (st : TrainState) (loss : ℚ) :
    (epochStep st loss).valid_loss_min ≤ st.valid_loss_min := by
  unfold epochStep
  by_cases h : (loss : WithTop ℚ) ≤ st.valid_loss_min
  · simp [h]
  · simp [h]

/-- Across the whole epoch loop the running minimum never increases. -/
theorem trainLoop_min_le (losses : List ℚ) :
    ∀ st : TrainState, (trainLoop st losses).valid_loss_min ≤ st.valid_loss_min := by
  induction losses with
  | nil => intro st; simp [trainLoop]
  | cons l ls ih =>
    intro st
    have h1 : (trainLoop (epochStep st l) ls).valid_loss_min
        ≤ (epochStep st l).valid_loss_min := ih (epochStep st l)
    have h2 := epochStep_min_le st l
    calc (trainLoop st (l :: ls)).valid_loss_min
        = (trainLoop (epochStep st l) ls).valid_loss_min := by simp [trainLoop]
      _ ≤ (epochStep st l).valid_loss_min := h1
      _ ≤ st.valid_loss_min := h2

/-- The improvement counter and the checkpoint-save counter never
decrease across the epoch loop. -/
theorem trainLoop_counts_mono (losses : List ℚ) :
    ∀ st : TrainState, st.improvements ≤ (trainLoop st losses).improvements
      ∧ st.saves ≤ (trainLoop st losses).saves := by
  induction losses with
  | nil => intro st; simp [trainLoop]
  | cons l ls ih =>
    intro st
    have hstep : st.improvements ≤ (epochStep st l).improvements
        ∧ st.saves ≤ (epochStep st l).saves := by
      unfold epochStep
      by_cases h : (l : WithTop ℚ) ≤ st.valid_loss_min
      · simp [h]
      · simp [h]
    have hrest := ih (epochStep st l)
    constructor
    · calc st.improvements ≤ (epochStep st l).improvements := hstep.1
        _ ≤ (trainLoop (epochStep st l) ls).improvements := hrest.1
        _ = (trainLoop st (l :: ls)).improvements := by simp [trainLoop]
    · calc st.saves ≤ (epochStep st l).saves := hstep.2
        _ ≤ (trainLoop (epochStep st l) ls).saves := hrest.2
        _ = (trainLoop st (l :: ls)).saves := by simp [trainLoop]

end Helpers

/-- C1: during `train`, in every epoch a checkpoint is persisted if and
only if the epoch validation loss is less than or equal to the running
minimum (non-strict, ties count); each such improvement increments the
improvement counter; the Best-Metric Record is written with the append
operation on the first improvement and the replace operation on the
second and later ones; and the running minimum validation loss is
non-increasing, per epoch and across the whole run. -/
theorem C1_improvement_rule (st : TrainState) (loss : ℚ) (losses : List ℚ) :
    ((epochStep st loss).saves = st.saves + 1 ↔ (loss : WithTop ℚ) ≤ st.valid_loss_min) ∧
    ((epochStep st loss).improvements = st.improvements + 1
      ↔ (loss : WithTop ℚ) ≤ st.valid_loss_min) ∧
    (¬ (loss : WithTop ℚ) ≤ st.valid_loss_min → epochStep st loss = st) ∧
    ((loss : WithTop ℚ) ≤ st.valid_loss_min → st.improvements = 0 →
      (epochStep st loss).recordOps = st.recordOps ++ [false]) ∧
    ((loss : WithTop ℚ) ≤ st.valid_loss_min → st.improvements ≠ 0 →
      (epochStep st loss).recordOps = st.recordOps ++ [true]) ∧
    (epochStep st loss).valid_loss_min ≤ st.valid_loss_min ∧
    (trainLoop st losses).valid_loss_min ≤ st.valid_loss_min := by
  by_cases h : (loss : WithTop ℚ) ≤ st.valid_loss_min
  · refine ⟨by simp [epochStep, h], by simp [epochStep, h], fun hn => absurd h hn,
      fun _ h0 => ?_, fun _ h0 => ?_, ?_, trainLoop_min_le losses st⟩
    · simp [epochStep, h, h0]
    · simp only [epochStep, if_pos h]
      have : (st.improvements != 0) = true := by
        cases hi : st.improvements with
        | zero => exact absurd hi h0
        | succ k => rfl
      rw [this]
    · simpa [epochStep, h] using h
  · refine ⟨?_, ?_, fun _ => by simp [epochStep, h], fun hc => absurd hc h,
      fun hc => absurd hc h, by simp [epochStep, h], trainLoop_min_le losses st⟩
    · simp [epochStep, h]
    · simp [epochStep, h]

/-- Witness for C1 at a concrete state: a tie (loss equal to the running
minimum) on a state with one prior improvement saves a checkpoint,
increments the counter and writes the record with the replace
operation. -/
theorem C1_improvement_rule_witness :
    (epochStep ⟨((1 : ℚ) : WithTop ℚ), 1, 1, [false]⟩ 1).recordOps = [false, true] ∧
    (epochStep ⟨((1 : ℚ) : WithTop ℚ), 1, 1, [false]⟩ 1).saves = 1 + 1 := by
  have h := C1_improvement_rule ⟨((1 : ℚ) : WithTop ℚ), 1, 1, [false]⟩ 1 []
  exact ⟨h.2.2.2.2.1 (le_refl _) (by decide), (h.1).mpr (le_refl _)⟩

/-- C2: the claim says `setup_optimization` configures exactly the
optimizer and scheduler that were requested by name.  The code does not:
the unconditional assignments at source lines 341 and 357 overwrite the
`adam` and `StepLR` selections, so requesting `adam` with `StepLR`
still configures the SGD optimizer and the ReduceLROnPlateau scheduler
(the requested names only pass validation and get logged). -/
theorem C2_adam_stepLR_overwritten (fs : FS) (exp_no : Nat)
    (optimizer_name scheduler_name : String)
    (learning_rate factor threshold gamma : ℚ) (patience step_size : Nat)
    (hopt : optimizer_name ∈ ["adam", "SGD"])
    (hsched : scheduler_name ∈ ["reduceOnPlateau", "StepLR"]) :
    (setup_optimization fs exp_no optimizer_name scheduler_name
        learning_rate factor threshold gamma patience step_size).map
        (fun r => (r.1, r.2.1))
      = .ok (Optimizer.SGD, Scheduler.ReduceLROnPlateau) := by
  simp only [List.mem_cons, List.mem_singleton, List.not_mem_nil, or_false] at hopt hsched
  rcases hopt with rfl | rfl <;> rcases hsched with rfl | rfl <;> rfl

/-- Witness for C2 at the request for the Adam optimizer with the StepLR
scheduler: the configured pair is still SGD with ReduceLROnPlateau. -/
theorem C2_adam_stepLR_overwritten_witness :
    (setup_optimization fsEmpty 1 "adam" "StepLR" 1 1 1 1 5 30).map
        (fun r => (r.1, r.2.1))
      = .ok (Optimizer.SGD, Scheduler.ReduceLROnPlateau) :=
  C2_adam_stepLR_overwritten fsEmpty 1 "adam" "StepLR" 1 1 1 1 5 30
    (by decide) (by decide)

/-- C5: the claim says a previous-checkpoint resume without the
prior-best validation loss fails with a configuration error, like the
custom-checkpoint case.  The code checks only the custom-checkpoint
case: with `load_prev` set and `valid_loss = None` the prologue
succeeds and leaves the running minimum as Python `None` (first
conjunct), while the custom-checkpoint case does purge the log and
raise IOError (second conjunct). -/
theorem C5_load_prev_no_check :
    (∃ fs1, train_start fsC5 7 none (some "ckpt.pth") none = .ok (none, fs1)) ∧
    train_start fsC5 7 (some "custom.pth") none none
      = .error (.ioError, { logs := [], metricsDirs := [7] }) := by
  exact ⟨⟨_, rfl⟩, rfl⟩

/-- C6: the claim says `load_model` instantiates the architecture whose
name was requested.  The code does for `resnet18` and `resnet50`, but
requesting `resnet101` instantiates `models.vgg16` and requesting
`resnet152` instantiates `models.resnet101` (source lines 223-226);
unsupported names are rejected with ModelNotFoundError at construction,
as claimed. -/
theorem C6_backbone_mismatch :
    load_model_backbone "resnet18" = some Arch.resnet18 ∧
    load_model_backbone "resnet50" = some Arch.resnet50 ∧
    load_model_backbone "resnet101" = some Arch.vgg16 ∧
    load_model_backbone "resnet152" = some Arch.resnet101 ∧
    (∀ fs, classifier_init fs 1 "alexnet" "animals" = .error .modelNotFound) :=
  ⟨rfl, rfl, rfl, rfl, fun _ => rfl⟩

/-- C10: on a fresh start `train` initialises the running minimum to
positive infinity, so with at least one epoch the first epoch always
counts as an improvement: the counter ends at least 1, at least one
checkpoint is written, and the zero-improvement purge branch is never
taken. -/
theorem C10_fresh_run_always_improves (losses : List ℚ) (hne : losses ≠ []) :
    (∀ fs exp_no, ∃ fs1,
        train_start fs exp_no none none none = .ok (some (⊤ : WithTop ℚ), fs1)) ∧
    (∀ l rest, losses = l :: rest →
        (epochStep (initTrainState ⊤) l).improvements = 1) ∧
    1 ≤ (trainLoop (initTrainState ⊤) losses).improvements ∧
    1 ≤ (trainLoop (initTrainState ⊤) losses).saves ∧
    (∀ fs exp_no, train_finish fs (trainLoop (initTrainState ⊤) losses) exp_no = .ok fs) := by
  have hfirst : ∀ l : ℚ, epochStep (initTrainState ⊤) l
      = ⟨(l : WithTop ℚ), 1, 1, [false]⟩ := by
    intro l
    simp [epochStep, initTrainState, le_top]
  obtain ⟨l, rest, rfl⟩ : ∃ l rest, losses = l :: rest := by
    cases losses with
    | nil => exact absurd rfl hne
    | cons l rest => exact ⟨l, rest, rfl⟩
  have hloop : trainLoop (initTrainState ⊤) (l :: rest)
      = trainLoop ⟨(l : WithTop ℚ), 1, 1, [false]⟩ rest := by
    simp [trainLoop, hfirst l]
  have hmono := trainLoop_counts_mono rest (⟨(l : WithTop ℚ), 1, 1, [false]⟩ : TrainState)
  have himp : 1 ≤ (trainLoop (initTrainState ⊤) (l :: rest)).improvements := by
    rw [hloop]; exact hmono.1
  have hsaves : 1 ≤ (trainLoop (initTrainState ⊤) (l :: rest)).saves := by
    rw [hloop]; exact hmono.2
  refine ⟨fun fs exp_no => ⟨_, rfl⟩,
    fun l' rest' heq => by
      injection heq with h1 h2
      subst h1
      rw [hfirst], himp, hsaves, fun fs exp_no => ?_⟩
  have hz : ((trainLoop (initTrainState ⊤) (l :: rest)).improvements == 0) = false := by
    cases hi : (trainLoop (initTrainState ⊤) (l :: rest)).improvements with
    | zero => rw [hi] at himp; exact absurd himp (by decide)
    | succ k => rfl
  simp [train_finish, hz]

/-- Witness for C10 on the one-epoch run with validation loss one half. -/
theorem C10_fresh_run_always_improves_witness :
    1 ≤ (trainLoop (initTrainState ⊤) [1/2]).improvements ∧
    (∀ fs exp_no, train_finish fs (trainLoop (initTrainState ⊤) [1/2]) exp_no = .ok fs) := by
  have h := C10_fresh_run_always_improves [1/2] (by simp)
  exact ⟨h.2.2.1, h.2.2.2.2⟩

/-- C3 counterexample: on a log that contains no line matching the new
line's fifteen-character identifier, the replace operation fails with
IndexError (the `[0]` subscript on an empty `re.findall` result), not
with the NotFound error the claim states. -/
theorem C3_counterexample :
    write_data fsC3 (.one "Minimum Valid loss: 0.5") 7 false true
        = .error .indexError ∧
    Err.indexError ≠ Err.fileNotFound := ⟨rfl, by decide⟩

/-- C3 amended: the replace operation of `write_data` raises IndexError
when the new line has no run of fifteen consecutive non-newline
characters (before the file is even opened), raises NotFound
(FileNotFoundError) when the log file does not exist, raises IndexError
(not NotFound) when the fifteen-character identifier does not occur in
the file followed by at least one further character on its line, and
succeeds in every other case. -/
theorem C3_replace_error_characterization (fs : FS) (line : String)
    (exp_no : Nat) (c : Bool) :
    (firstWin15 line.toList = none →
      write_data fs (.one line) exp_no c true = .error .indexError) ∧
    (∀ idf, firstWin15 line.toList = some idf →
      getLog fs (logFileName exp_no) = none →
      write_data fs (.one line) exp_no c true = .error .fileNotFound) ∧
    (∀ idf data, firstWin15 line.toList = some idf →
      getLog fs (logFileName exp_no) = some data →
      findOld data.toList idf = none →
      write_data fs (.one line) exp_no c true = .error .indexError) ∧
    (∀ idf data old, firstWin15 line.toList = some idf →
      getLog fs (logFileName exp_no) = some data →
      findOld data.toList idf = some old →
      write_data fs (.one line) exp_no c true
        = .ok (setLog fs (logFileName exp_no)
            (String.mk (replaceAll data.toList old line.toList)))) := by
  refine ⟨fun h15 => ?_, fun idf h15 hlog => ?_, fun idf data h15 hlog hold => ?_,
    fun idf data old h15 hlog hold => ?_⟩
  · have h15d : firstWin15 line.data = none := h15
    simp [write_data, write_replace, h15d]
  · have h15d : firstWin15 line.data = some idf := h15
    simp [write_data, write_replace, h15d, hlog]
  · have h15d : firstWin15 line.data = some idf := h15
    have holdd : findOld data.data idf = none := hold
    simp [write_data, write_replace, h15d, hlog, holdd]
  · have h15d : firstWin15 line.data = some idf := h15
    have holdd : findOld data.data idf = some old := hold
    simp [write_data, write_replace, h15d, hlog, holdd]

/-- Witness for C3 amended: replacing into a nonexistent log file fails
with NotFound. -/
theorem C3_replace_error_characterization_witness :
    write_data fsEmpty (.one "Minimum Valid loss: 0.5") 7 false true
      = .error .fileNotFound := by
  exact (C3_replace_error_characterization fsEmpty "Minimum Valid loss: 0.5" 7 false).2.1
    ("Minimum Valid l".toList) (by rfl) rfl

/-- C4 counterexample: purging experiment 1 while experiment 12's log
exists deletes the log of experiment 12 as well, because
`re.search('_1', name)` also matches `Test Report_12.txt`; the claim
says no other experiment's log files are removed. -/
theorem C4_counterexample :
    train_finish fsC4 (initTrainState ⊤) 1 = .ok { logs := [], metricsDirs := [] } ∧
    getLog fsC4 (logFileName 12) = some "b" := ⟨rfl, rfl⟩

/-- C4 amended: when the improvement counter is zero after all epochs,
`train` purges via `delete_file`, which removes the experiment's metrics
directory and exactly those `.txt` log files whose name contains the
substring `_<id>` — the experiment's own log always among them, but
possibly other experiments' logs too — and afterwards a replace on that
id's log (given a well-formed line) fails with NotFound; an append
would instead recreate the file. -/
theorem C4_zero_improvement_purge (fs : FS) (st : TrainState) (exp_no : Nat)
    (line content : String)
    (h0 : st.improvements = 0)
    (hlog : getLog fs (logFileName exp_no) = some content) :
    ∃ fs1, train_finish fs st exp_no = .ok fs1 ∧
      fs1.metricsDirs = fs.metricsDirs.filter (fun d => d ≠ exp_no) ∧
      fs1.logs = fs.logs.filter (fun f =>
        !(txtName f.1 && subMatch f.1.toList ("_" ++ toString exp_no).toList)) ∧
      getLog fs1 (logFileName exp_no) = none ∧
      (∀ idf, firstWin15 line.toList = some idf →
        write_data fs1 (.one line) exp_no false true = .error .fileNotFound) := by
  obtain ⟨q, hq, hq2⟩ : ∃ q, fs.logs.find? (fun p => p.1 == logFileName exp_no) = some q
      ∧ q.2 = content := by
    cases hfind : fs.logs.find? (fun p => p.1 == logFileName exp_no) with
    | none => simp [getLog, hfind] at hlog
    | some q => exact ⟨q, rfl, by simpa [getLog, hfind] using hlog⟩
  have hq1 : q.1 = logFileName exp_no := by simpa using List.find?_some hq
  have hqmem : q ∈ fs.logs := List.mem_of_find?_eq_some hq
  have htxt : txtName q.1 = true := by rw [hq1]; exact txtName_logFileName exp_no
  have hne : fs.logs.filter (fun f => txtName f.1) ≠ [] :=
    List.ne_nil_of_mem (List.mem_filter.mpr ⟨hqmem, htxt⟩)
  have hie : (fs.logs.filter (fun f => txtName f.1)).isEmpty = false := by
    cases hfe : (fs.logs.filter (fun f => txtName f.1)).isEmpty with
    | false => rfl
    | true => exact absurd (List.isEmpty_iff.mp hfe) hne
  have hfin : train_finish fs st exp_no = delete_file fs exp_no true := by
    simp [train_finish, h0]
  have hdel : delete_file fs exp_no true = .ok
      { logs := fs.logs.filter (fun f =>
          !(txtName f.1 && subMatch f.1.toList ("_" ++ toString exp_no).toList)),
        metricsDirs := fs.metricsDirs.filter (fun d => d ≠ exp_no) } := by
    simp [delete_file, hie]
  have hkeepnone : ∀ x ∈ fs.logs, x.1 = logFileName exp_no →
      (!(txtName x.1 && subMatch x.1.toList ("_" ++ toString exp_no).toList)) = false := by
    intro x hx hxn
    rw [hxn]
    have hsub := subMatch_logFileName exp_no
    simp only [txtName_logFileName, hsub, Bool.and_self, Bool.not_true]
  have hgl : getLog
      { logs := fs.logs.filter (fun f =>
          !(txtName f.1 && subMatch f.1.toList ("_" ++ toString exp_no).toList)),
        metricsDirs := fs.metricsDirs.filter (fun d => d ≠ exp_no) }
      (logFileName exp_no) = none := by
    simp only [getLog]
    rw [find?_filter_none fs.logs _ (logFileName exp_no) hkeepnone]
    rfl
  refine ⟨_, hfin.trans hdel, rfl, rfl, hgl, fun idf h15 => ?_⟩
  exact write_data_replace_missing _ line exp_no false idf h15 hgl

/-- Witness for C4 amended at a concrete file system holding one log and
one metrics directory for experiment 3. -/
theorem C4_zero_improvement_purge_witness :
    ∃ fs1, train_finish fsW4 (initTrainState ⊤) 3 = .ok fs1 ∧
      fs1.metricsDirs = fsW4.metricsDirs.filter (fun d => d ≠ 3) ∧
      fs1.logs = fsW4.logs.filter (fun f =>
        !(txtName f.1 && subMatch f.1.toList ("_" ++ toString 3).toList)) ∧
      getLog fs1 (logFileName 3) = none ∧
      (∀ idf, firstWin15 "Minimum Valid loss: 0.5".toList = some idf →
        write_data fs1 (.one "Minimum Valid loss: 0.5") 3 false true
          = .error .fileNotFound) :=
  C4_zero_improvement_purge fsW4 (initTrainState ⊤) 3 "Minimum Valid loss: 0.5" "x" rfl rfl

/-- C7: for any training-set size, validation fraction and shuffle
outcome, `load_data` produces a validation index set of size exactly
the floor of the fraction times the size, a training index set disjoint
from it, and together they partition the training-set indices. -/
theorem C7_validation_split (N : Nat) (valid_size : ℚ) (indices : List Nat)
    (hperm : indices.Perm (List.range N)) (h0 : 0 ≤ valid_size) (h1 : valid_size ≤ 1) :
    (load_data_split N valid_size indices).2.length = (⌊valid_size * (N : ℚ)⌋).toNat ∧
    (load_data_split N valid_size indices).1.Disjoint
      (load_data_split N valid_size indices).2 ∧
    ((load_data_split N valid_size indices).1
        ++ (load_data_split N valid_size indices).2).Perm (List.range N) := by
  have hlen : indices.length = N := by rw [hperm.length_eq, List.length_range]
  have hle : (⌊valid_size * (N : ℚ)⌋).toNat ≤ N := by
    rw [Int.toNat_le]
    calc ⌊valid_size * (N : ℚ)⌋ ≤ ⌊(N : ℚ)⌋ :=
          Int.floor_le_floor (mul_le_of_le_one_left (by positivity) h1)
      _ = (N : ℤ) := Int.floor_natCast N
  have hnodup : indices.Nodup := hperm.nodup_iff.mpr (List.nodup_range N)
  have hsplit : indices.take ((⌊valid_size * (N : ℚ)⌋).toNat)
      ++ indices.drop ((⌊valid_size * (N : ℚ)⌋).toNat) = indices :=
    List.take_append_drop _ indices
  have hnd2 : (indices.take ((⌊valid_size * (N : ℚ)⌋).toNat)
      ++ indices.drop ((⌊valid_size * (N : ℚ)⌋).toNat)).Nodup := by
    rw [hsplit]; exact hnodup
  have hdisj := (List.nodup_append.mp hnd2).2.2
  refine ⟨?_, ?_, ?_⟩
  · show (indices.take ((⌊valid_size * (N : ℚ)⌋).toNat)).length = _
    rw [List.length_take, hlen]
    exact min_eq_left hle
  · exact hdisj.symm
  · show (indices.drop ((⌊valid_size * (N : ℚ)⌋).toNat)
        ++ indices.take ((⌊valid_size * (N : ℚ)⌋).toNat)).Perm (List.range N)
    have hcomm : (indices.drop ((⌊valid_size * (N : ℚ)⌋).toNat)
        ++ indices.take ((⌊valid_size * (N : ℚ)⌋).toNat)).Perm
        (indices.take ((⌊valid_size * (N : ℚ)⌋).toNat)
          ++ indices.drop ((⌊valid_size * (N : ℚ)⌋).toNat)) := List.perm_append_comm
    rw [hsplit] at hcomm
    exact hcomm.trans hperm

/-- Witness for C7 on a concrete shuffle of five indices with validation
fraction two fifths. -/
theorem C7_validation_split_witness :
    (load_data_split 5 (2/5) [4, 2, 0, 3, 1]).2.length
      = (⌊(2/5 : ℚ) * ((5 : Nat) : ℚ)⌋).toNat ∧
    (load_data_split 5 (2/5) [4, 2, 0, 3, 1]).1.Disjoint
      (load_data_split 5 (2/5) [4, 2, 0, 3, 1]).2 ∧
    ((load_data_split 5 (2/5) [4, 2, 0, 3, 1]).1
        ++ (load_data_split 5 (2/5) [4, 2, 0, 3, 1]).2).Perm (List.range 5) :=
  C7_validation_split 5 (2/5) [4, 2, 0, 3, 1] (by decide) (by norm_num) (by norm_num)

/-- C8: requesting the unsupported optimizer name rmsprop makes
`setup_optimization` fail with the unsupported-configuration error (the
IOError the spec taxonomy calls ConfigurationError) without ever
reaching the training loop, after purging the experiment log that the
earlier part of setup had created for that experiment id. -/
theorem C8_unsupported_optimizer (fs : FS) (exp_no : Nat) (scheduler_name : String)
    (learning_rate factor threshold gamma : ℚ) (patience step_size : Nat) :
    ∃ fs1,
      setup_optimization fs exp_no "rmsprop" scheduler_name
          learning_rate factor threshold gamma patience step_size
        = .error (Err.ioError, fs1) ∧
      getLog fs1 (logFileName exp_no) = none := by
  obtain ⟨hdel, hnone⟩ := delete_after_append fs (.many
    ["Optimizer name: " ++ "rmsprop",
     "Scheduler name: " ++ scheduler_name,
     "Starting Learning rate: " ++ toString learning_rate]) exp_no true
  refine ⟨_, ?_, hnone⟩
  unfold setup_optimization
  rw [if_pos (show "rmsprop" ∉ ["adam", "SGD"] by decide)]
  rw [hdel]

/-- C9 counterexample: a single-line append with `continuing` set writes
the line with no separator at all, while the claim (and the spec-side
rendering) say one separator still follows the block. -/
theorem C9_counterexample :
    appendedText (.one "Trained From beginning") true = "Trained From beginning" ++ "\n" ∧
    appendedText (.one "Trained From beginning") true
      ≠ specAppendedText (.one "Trained From beginning") true := ⟨rfl, by decide⟩

/-- C9 amended: for list input `write_data` appends exactly as the
claim states (a separator after each line when `continuing` is unset,
one separator after the whole block when it is set); for single-string
input with `continuing` unset it also matches; but for single-string
input with `continuing` set no separator is written at all — the
following record is not separated from the block. -/
theorem C9_append_separator_semantics (s : String) (ls : List String) (continuing : Bool) :
    (appendedText (.many ls) continuing = specAppendedText (.many ls) continuing) ∧
    (appendedText (.one s) false = specAppendedText (.one s) false) ∧
    (appendedText (.one s) true = s ++ "\n") := by
  refine ⟨?_, rfl, rfl⟩
  cases continuing with
  | false =>
    show (ls.foldl _ "") = _
    rw [foldl_append_specSepJoin false ls ""]
    simp [specAppendedText, String.empty_append]
  | true =>
    show (ls.foldl _ "") ++ separator = _
    rw [foldl_append_specSepJoin true ls ""]
    simp [specAppendedText, String.empty_append]

end Modelbuilder
